import Mathlib

/-!
Shallow embedding of cargo-pgx's `new` command
(`src/cargo-pgx/src/command/new.rs`).

The Rust code validates an extension name and then scaffolds a crate:
it creates `src/`, `.cargo/`, `sql/` directories and writes five files
(`<name>.control`, `Cargo.toml`, `.cargo/config`, `src/lib.rs`,
`.gitignore`), rendering templates with `format!` where the template has
a `{name}` placeholder.  Filesystem effects are embedded as explicit
state passing over a finite map from paths to entries; fallible
operations return `Except (IOError × FS) FS`, carrying the state as it
stood at the failure so that partial-state claims are expressible.
-/

/-- Rust `char::is_alphanumeric`, modelled on the ASCII range (letters
and digits).  Rust's predicate is Unicode-aware; every character the
claims quantify over is ASCII, where the two agree. -/
def rustIsAlphanumeric (c : Char) : Bool := c.isAlpha || c.isDigit

/-- Rust `char::is_lowercase`, modelled on the ASCII range (`a`-`z`). -/
def rustIsLowercase (c : Char) : Bool := c.isLower

/-- The character loop of `validate_extension_name` (new.rs line 38-42):
the first character that is neither alphanumeric, nor `_`, nor lowercase
aborts with the error message; otherwise the whole string is accepted. -/
def validateChars : List Char → Except String Unit
  | [] => Except.ok ()
  | c :: cs =>
    if !rustIsAlphanumeric c && c != '_' && !rustIsLowercase c then
      Except.error "Extension name must be in the set of [a-z0-9_]"
    else validateChars cs

/-- `validate_extension_name` (new.rs line 37-44). -/
def validate_extension_name (extname : String) : Except String Unit :=
  validateChars extname.data

/-- The character class `[a-z0-9_]` named by the validation error message
and by the spec: ASCII lowercase letters, ASCII digits, underscore. -/
def allowedChar (c : Char) : Bool := c.isLower || c.isDigit || c == '_'

/-- Model of Rust `PathBuf`: an absolute-path flag plus the list of
components.  The code only pushes single normal components (validated
names contain no separator), pops, and parses `"<name>/"`. -/
structure FsPath where
  absolute : Bool
  components : List String
deriving DecidableEq

/-- `PathBuf::push` with a single normal component. -/
def FsPath.push (p : FsPath) (c : String) : FsPath :=
  ⟨p.absolute, p.components ++ [c]⟩

/-- `PathBuf::pop`: drop the last component. -/
def FsPath.pop (p : FsPath) : FsPath :=
  ⟨p.absolute, p.components.dropLast⟩

/-- Split a character list into `/`-separated components, dropping empty
components (as `PathBuf` does for duplicate and trailing separators).
`cur` accumulates the current component in reverse. -/
def splitSlashAux (cur : List Char) : List Char → List (List Char)
  | [] => if cur = [] then [] else [cur.reverse]
  | c :: cs =>
    if c = '/' then
      if cur = [] then splitSlashAux [] cs
      else cur.reverse :: splitSlashAux [] cs
    else splitSlashAux (c :: cur) cs

/-- `PathBuf::from_str` (infallible): absolute iff the string starts
with `/`; components are the `/`-separated pieces. -/
def pathBufFromStr (s : String) : FsPath :=
  ⟨s.data.head? == some '/', (splitSlashAux [] s.data).map (fun l => String.mk l)⟩

/-- A filesystem entry: a directory or a file with its byte contents
(modelled as a string). -/
inductive Entry
  | dir
  | file (contents : String)
deriving DecidableEq

/-- Filesystem state: an association list from paths to entries; the
first binding for a path wins. -/
abbrev FS := List (FsPath × Entry)

/-- The I/O failures the modelled operations can report, each carrying
the offending path. -/
inductive IOError
  | notADirectory (p : FsPath)
  | notFound (p : FsPath)
  | isADirectory (p : FsPath)
  | notAFile (p : FsPath)
deriving DecidableEq

/-- Look a path up in the filesystem state. -/
def fsLookup : FS → FsPath → Option Entry
  | [], _ => none
  | (q, e) :: fs, p => if q = p then some e else fsLookup fs p

/-- Resolve a path: the empty component list (the current working
directory, or the filesystem root for absolute paths) always exists as a
directory; everything else is looked up. -/
def fsResolve (fs : FS) (p : FsPath) : Option Entry :=
  if p.components = [] then some Entry.dir else fsLookup fs p

/-- Update the contents of the file at `p` in place (`none` if `p` is
absent or a directory). -/
def updateFile (f : String → String) : FS → FsPath → Option FS
  | [], _ => none
  | (q, e) :: fs, p =>
    if q = p then
      match e with
      | Entry.file c => some ((q, Entry.file (f c)) :: fs)
      | Entry.dir => none
    else (updateFile f fs p).map (fun fs' => (q, e) :: fs')

/-- The nonempty prefixes of a component list, shortest first. -/
def prefixesOf : List String → List (List String)
  | [] => []
  | c :: rest => [c] :: (prefixesOf rest).map (fun l => c :: l)

/-- Worker for `create_dir_all`: walk the prefixes, skipping existing
directories, creating missing ones, failing on a path that exists as a
regular file. -/
def createDirsGo (ab : Bool) : List (List String) → FS → Except (IOError × FS) FS
  | [], fs => Except.ok fs
  | c :: rest, fs =>
    match fsResolve fs ⟨ab, c⟩ with
    | some Entry.dir => createDirsGo ab rest fs
    | some (Entry.file _) => Except.error (IOError.notADirectory ⟨ab, c⟩, fs)
    | none => createDirsGo ab rest ((⟨ab, c⟩, Entry.dir) :: fs)

/-- Model of `std::fs::create_dir_all`: create every missing directory
along the path; tolerate directories that already exist; fail if some
prefix exists as a regular file. -/
def create_dir_all (p : FsPath) (fs : FS) : Except (IOError × FS) FS :=
  createDirsGo p.absolute (prefixesOf p.components) fs

/-- Model of `std::fs::File::create`: truncate-on-create.  Fails if the
parent does not resolve to a directory or the path itself is a
directory; truncates a pre-existing file; otherwise creates an empty
file. -/
def file_create (p : FsPath) (fs : FS) : Except (IOError × FS) FS :=
  match fsResolve fs p.pop with
  | none => Except.error (IOError.notFound p, fs)
  | some (Entry.file _) => Except.error (IOError.notADirectory p, fs)
  | some Entry.dir =>
    match fsResolve fs p with
    | some Entry.dir => Except.error (IOError.isADirectory p, fs)
    | some (Entry.file _) =>
      match updateFile (fun _ => "") fs p with
      | some fs' => Except.ok fs'
      | none => Except.error (IOError.notAFile p, fs)
    | none => Except.ok ((p, Entry.file "") :: fs)

/-- Model of `File::write_all` on a freshly created handle: append to
the file's current contents (empty right after `File::create`). -/
def write_all (p : FsPath) (s : String) (fs : FS) : Except (IOError × FS) FS :=
  match updateFile (fun c => c ++ s) fs p with
  | some fs' => Except.ok fs'
  | none => Except.error (IOError.notAFile p, fs)

/-- Modelled from the spec: a template is a fixed format string with a
single named placeholder `{name}`.  The template files under
`src/cargo-pgx/src/templates/` are not part of the repository snapshot;
the spec treats their contents as opaque fixed text, so each is modelled
as the text before and after the placeholder. -/
structure Template where
  pre : String
  post : String
deriving DecidableEq

/-- `format!(template, name = name)`: substitute the name at the
placeholder. -/
def Template.render (t : Template) (name : String) : String :=
  t.pre ++ name ++ t.post

/-- Modelled from the spec: `templates/control`, an opaque fixed format
string (representative text). -/
def controlTemplate : Template := ⟨"comment = '", ": created by pgx'\n"⟩

/-- Modelled from the spec: `templates/cargo_toml`, an opaque fixed
format string (representative text). -/
def cargoTomlTemplate : Template := ⟨"[package]\nname = \"", "\"\n"⟩

/-- Modelled from the spec: `templates/cargo_config`, opaque fixed bytes
copied verbatim (representative text). -/
def cargoConfigBytes : String := "[build]\nrustflags = []\n"

/-- Modelled from the spec: `templates/lib_rs`, the Standard entry-point
template, an opaque fixed format string (representative text). -/
def libTemplate : Template := ⟨"standard entry point of ", "\n"⟩

/-- Modelled from the spec: `templates/bgworker_lib_rs`, the Worker
entry-point template; per the spec a different fixed template from the
Standard one (representative text). -/
def bgworkerLibTemplate : Template := ⟨"bgworker entry point of ", "\n"⟩

/-- Modelled from the spec: `templates/gitignore`, opaque fixed bytes
copied verbatim (representative text). -/
def gitignoreBytes : String := "/target\n"

/-- `create_directory_structure` (new.rs line 62-75): push `src`, create;
pop, push `.cargo`, create; pop, push `sql`, create. -/
def create_directory_structure (path : FsPath) (fs : FS) : Except (IOError × FS) FS := do
  let src_dir := path.push "src"
  let fs ← create_dir_all src_dir fs
  let src_dir := src_dir.pop.push ".cargo"
  let fs ← create_dir_all src_dir fs
  let src_dir := src_dir.pop.push "sql"
  create_dir_all src_dir fs

/-- `create_control_file` (new.rs line 77-86). -/
def create_control_file (path : FsPath) (name : String) (fs : FS) : Except (IOError × FS) FS := do
  let filename := path.push (name ++ ".control")
  let fs ← file_create filename fs
  write_all filename (controlTemplate.render name) fs

/-- `create_cargo_toml` (new.rs line 88-97). -/
def create_cargo_toml (path : FsPath) (name : String) (fs : FS) : Except (IOError × FS) FS := do
  let filename := path.push "Cargo.toml"
  let fs ← file_create filename fs
  write_all filename (cargoTomlTemplate.render name) fs

/-- `create_dotcargo_config` (new.rs line 99-109): the name parameter is
accepted but unused; the bytes are copied verbatim. -/
def create_dotcargo_config (path : FsPath) (_name : String) (fs : FS) : Except (IOError × FS) FS := do
  let filename := (path.push ".cargo").push "config"
  let fs ← file_create filename fs
  write_all filename cargoConfigBytes fs

/-- `create_lib_rs` (new.rs line 111-127): the entry-point template is
chosen by the `is_bgworker` flag. -/
def create_lib_rs (path : FsPath) (name : String) (is_bgworker : Bool) (fs : FS) : Except (IOError × FS) FS := do
  let filename := (path.push "src").push "lib.rs"
  let fs ← file_create filename fs
  if is_bgworker then
    write_all filename (bgworkerLibTemplate.render name) fs
  else
    write_all filename (libTemplate.render name) fs

/-- `create_git_ignore` (new.rs line 129-138): the name parameter is
accepted but unused; the bytes are copied verbatim. -/
def create_git_ignore (path : FsPath) (_name : String) (fs : FS) : Except (IOError × FS) FS := do
  let filename := path.push ".gitignore"
  let fs ← file_create filename fs
  write_all filename gitignoreBytes fs

/-- `create_crate_template` (new.rs line 47-60): the six steps in their
fixed order, each `?`-propagating its error. -/
def create_crate_template (path : FsPath) (name : String) (is_bgworker : Bool) (fs : FS) : Except (IOError × FS) FS := do
  let fs ← create_directory_structure path fs
  let fs ← create_control_file path name fs
  let fs ← create_cargo_toml path name fs
  let fs ← create_dotcargo_config path name fs
  let fs ← create_lib_rs path name is_bgworker fs
  create_git_ignore path name fs

/-- The `New` command (new.rs line 18-26): extension name, bgworker
flag, verbosity. -/
structure New where
  name : String
  bgworker : Bool
  verbose : Nat

/-- The two error kinds `New::execute` can surface: a validation error
with its message, or an I/O error from scaffolding. -/
inductive NewError
  | validation (msg : String)
  | io (e : IOError)
deriving DecidableEq

/-- `New::execute` (new.rs line 28-35): validate, build the destination
path from `format!("{}/", name)`, scaffold.  The filesystem state is
carried through unchanged on a validation error. -/
def New.execute (self : New) (fs : FS) : Except (NewError × FS) FS :=
  match validate_extension_name self.name with
  | Except.error m => Except.error (NewError.validation m, fs)
  | Except.ok _ =>
    let path := pathBufFromStr (self.name ++ "/")
    match create_crate_template path self.name self.bgworker fs with
    | Except.ok fs' => Except.ok fs'
    | Except.error (e, fs') => Except.error (NewError.io e, fs')

/-- The filesystem state produced by a successful run of
`create_crate_template` on an empty destination, newest binding first
(the reverse of creation order). -/
def builtTree (root : FsPath) (name : String) (bg : Bool) : FS :=
  [(root.push ".gitignore", Entry.file gitignoreBytes),
   ((root.push "src").push "lib.rs",
     Entry.file (if bg then bgworkerLibTemplate.render name else libTemplate.render name)),
   ((root.push ".cargo").push "config", Entry.file cargoConfigBytes),
   (root.push "Cargo.toml", Entry.file (cargoTomlTemplate.render name)),
   (root.push (name ++ ".control"), Entry.file (controlTemplate.render name)),
   (root.push "sql", Entry.dir),
   (root.push ".cargo", Entry.dir),
   (root.push "src", Entry.dir),
   (root, Entry.dir)]

/-- The artifacts the spec lists for a completed generation, in the
spec's order: the destination root (when it is not the filesystem root
itself), the three directories, then the five files. -/
def expectedArtifacts (name : String) (bg : Bool) : FS :=
  let root := pathBufFromStr (name ++ "/")
  (if root.components = [] then [] else [(root, Entry.dir)]) ++
  [(root.push "src", Entry.dir),
   (root.push ".cargo", Entry.dir),
   (root.push "sql", Entry.dir),
   (root.push (name ++ ".control"), Entry.file (controlTemplate.render name)),
   (root.push "Cargo.toml", Entry.file (cargoTomlTemplate.render name)),
   ((root.push ".cargo").push "config", Entry.file cargoConfigBytes),
   ((root.push "src").push "lib.rs",
     Entry.file (if bg then bgworkerLibTemplate.render name else libTemplate.render name)),
   (root.push ".gitignore", Entry.file gitignoreBytes)]

/-- The filesystem state an operation left behind, whether it succeeded
or failed. -/
def resultState : Except (IOError × FS) FS → FS
  | Except.ok fs => fs
  | Except.error (_, fs) => fs

/-- The set of files (with their contents) is unchanged by an
operation. -/
def FilePres (fs : FS) (r : Except (IOError × FS) FS) : Prop :=
  ∀ q c, fsLookup (resultState r) q = some (Entry.file c) ↔ fsLookup fs q = some (Entry.file c)

/-- The filesystem produced by running the command with the empty name
(destination path `/`) on an empty filesystem: the eight artifacts at
absolute paths, newest binding first; no root entry is created because
the destination root is the filesystem root itself. -/
def emptyNameTree (bg : Bool) : FS :=
  [(⟨true, [".gitignore"]⟩, Entry.file gitignoreBytes),
   (⟨true, ["src", "lib.rs"]⟩,
     Entry.file (if bg then bgworkerLibTemplate.render "" else libTemplate.render "")),
   (⟨true, [".cargo", "config"]⟩, Entry.file cargoConfigBytes),
   (⟨true, ["Cargo.toml"]⟩, Entry.file (cargoTomlTemplate.render "")),
   (⟨true, [".control"]⟩, Entry.file (controlTemplate.render "")),
   (⟨true, ["sql"]⟩, Entry.dir),
   (⟨true, [".cargo"]⟩, Entry.dir),
   (⟨true, ["src"]⟩, Entry.dir)]

deriving instance DecidableEq for Except

/-! ### String disequalities

The control file's name `<name>.control` never collides with the other
fixed file and directory names, for any `name`. -/

theorem control_ne_short (name s : String) (h8 : 8 ≤ (".control" : String).length)
    (hs : s.length < 8) : ¬ (name ++ ".control" = s) := by
  intro h
  have hl := congrArg String.length h
  rw [String.length_append] at hl
  omega

theorem control_ne_src (name : String) : ¬ (name ++ ".control" = "src") :=
  control_ne_short name "src" (by decide) (by decide)

theorem control_ne_sql (name : String) : ¬ (name ++ ".control" = "sql") :=
  control_ne_short name "sql" (by decide) (by decide)

theorem control_ne_dotcargo (name : String) : ¬ (name ++ ".control" = ".cargo") :=
  control_ne_short name ".cargo" (by decide) (by decide)

theorem control_ne_cargo_toml (name : String) : ¬ (name ++ ".control" = "Cargo.toml") := by
  intro h
  have hd : name.data ++ (".control" : String).data =
      ['C','a'] ++ ['r','g','o','.','t','o','m','l'] := by
    have := congrArg String.data h
    rw [String.data_append] at this
    rw [this]
    decide
  have := (List.append_inj' hd (by decide)).2
  exact absurd this (by decide)

theorem control_ne_gitignore (name : String) : ¬ (name ++ ".control" = ".gitignore") := by
  intro h
  have hd : name.data ++ (".control" : String).data =
      ['.','g'] ++ ['i','t','i','g','n','o','r','e'] := by
    have := congrArg String.data h
    rw [String.data_append] at this
    rw [this]
    decide
  have := (List.append_inj' hd (by decide)).2
  exact absurd this (by decide)

theorem src_ne_control (name : String) : ¬ ("src" = name ++ ".control") :=
  fun h => control_ne_src name h.symm

theorem sql_ne_control (name : String) : ¬ ("sql" = name ++ ".control") :=
  fun h => control_ne_sql name h.symm

theorem dotcargo_ne_control (name : String) : ¬ (".cargo" = name ++ ".control") :=
  fun h => control_ne_dotcargo name h.symm

theorem cargo_toml_ne_control (name : String) : ¬ ("Cargo.toml" = name ++ ".control") :=
  fun h => control_ne_cargo_toml name h.symm

theorem gitignore_ne_control (name : String) : ¬ (".gitignore" = name ++ ".control") :=
  fun h => control_ne_gitignore name h.symm

/-! ### Symbolic runs of the generator -/

/-- A full run on an empty filesystem, destination `<name>/`, produces
exactly the `builtTree` entries, for every name. -/
theorem run_nonempty (name : String) (bg : Bool) :
    create_crate_template ⟨false, [name]⟩ name bg [] =
      Except.ok (builtTree ⟨false, [name]⟩ name bg) := by
  cases bg <;>
    simp [create_crate_template, create_directory_structure, create_control_file,
      create_cargo_toml, create_dotcargo_config, create_lib_rs, create_git_ignore,
      create_dir_all, createDirsGo, prefixesOf, file_create, write_all, fsResolve,
      fsLookup, updateFile, FsPath.push, FsPath.pop, builtTree, Bind.bind, Except.bind,
      control_ne_src, control_ne_sql, control_ne_dotcargo, control_ne_cargo_toml,
      control_ne_gitignore, src_ne_control, sql_ne_control, dotcargo_ne_control,
      cargo_toml_ne_control, gitignore_ne_control]

/-- A second full run on the tree produced by the first leaves the
filesystem exactly as it was: directories are tolerated, files are
truncated and rewritten with the same contents. -/
theorem run_again (name : String) (bg : Bool) :
    create_crate_template ⟨false, [name]⟩ name bg (builtTree ⟨false, [name]⟩ name bg) =
      Except.ok (builtTree ⟨false, [name]⟩ name bg) := by
  cases bg <;>
    simp [create_crate_template, create_directory_structure, create_control_file,
      create_cargo_toml, create_dotcargo_config, create_lib_rs, create_git_ignore,
      create_dir_all, createDirsGo, prefixesOf, file_create, write_all, fsResolve,
      fsLookup, updateFile, FsPath.push, FsPath.pop, builtTree, Bind.bind, Except.bind,
      control_ne_src, control_ne_sql, control_ne_dotcargo, control_ne_cargo_toml,
      control_ne_gitignore, src_ne_control, sql_ne_control, dotcargo_ne_control,
      cargo_toml_ne_control, gitignore_ne_control]

/-! ### The destination path of a validated name -/

theorem validateChars_no_slash (cs : List Char) (h : validateChars cs = Except.ok ()) :
    '/' ∉ cs := by
  induction cs with
  | nil => simp
  | cons c cs ih =>
    intro hm
    rw [validateChars] at h
    split at h
    · exact absurd h (by simp)
    · rename_i hcond
      rcases List.mem_cons.mp hm with h1 | h2
      · rw [← h1] at hcond
        exact hcond (by decide)
      · exact ih h h2

theorem splitSlashAux_no_slash (cs : List Char) : ∀ acc, '/' ∉ cs →
    splitSlashAux acc (cs ++ ['/']) = splitSlashAux (cs.reverse ++ acc) ['/'] := by
  induction cs with
  | nil => intro acc h; simp
  | cons c cs ih =>
    intro acc h
    rw [List.cons_append, splitSlashAux]
    have hc : ¬ (c = '/') := by
      intro e
      exact h (e ▸ List.mem_cons_self c cs)
    rw [if_neg hc]
    rw [ih (c :: acc) (fun m => h (List.mem_cons_of_mem c m))]
    congr 1
    simp

/-- For a validated, nonempty name, `PathBuf::from_str` on
`format!("{}/", name)` yields the relative single-component path
`<name>/`. -/
theorem pathBuf_of_valid (name : String) (hok : validate_extension_name name = Except.ok ())
    (hne : name ≠ "") : pathBufFromStr (name ++ "/") = ⟨false, [name]⟩ := by
  have hns : '/' ∉ name.data := validateChars_no_slash name.data hok
  obtain ⟨l⟩ := name
  have hl : l ≠ [] := by
    intro e
    exact hne (by rw [e])
  have hdata : (String.mk l ++ "/").data = l ++ ['/'] := by
    rw [String.data_append]
  rw [pathBufFromStr, hdata]
  have hsplit : splitSlashAux [] (l ++ ['/']) = [l] := by
    rw [splitSlashAux_no_slash l [] hns]
    simp [splitSlashAux, hl]
  rw [hsplit]
  obtain ⟨c, l', rfl⟩ : ∃ c l', l = c :: l' := by
    cases l with
    | nil => exact absurd rfl hl
    | cons c l' => exact ⟨c, l', rfl⟩
  have hc : ¬ (c = '/') := by
    intro e
    exact hns (e ▸ List.mem_cons_self c l')
  simp [hc]

/-! ### Template-rendering facts and validator acceptance -/

/-- The Standard and Worker entry-point templates render to different
text for every name (modelled from the spec: the two are different fixed
templates). -/
theorem renders_differ (name : String) :
    ¬ (libTemplate.render name = bgworkerLibTemplate.render name) := by
  intro h
  have hd := congrArg String.data h
  simp only [Template.render, libTemplate, bgworkerLibTemplate, String.data_append,
    List.append_assoc] at hd
  have := (List.append_inj hd (by decide)).1
  exact absurd this (by decide)

/-- Every string over `[a-z0-9_]` passes the character loop. -/
theorem validateChars_allowed : ∀ cs, (∀ c ∈ cs, allowedChar c = true) →
    validateChars cs = Except.ok () := by
  intro cs
  induction cs with
  | nil => intro _; rfl
  | cons c cs ih =>
    intro h
    have hc := h c (List.mem_cons_self c cs)
    have hcs : ∀ d ∈ cs, allowedChar d = true :=
      fun d hd => h d (List.mem_cons_of_mem c hd)
    rw [allowedChar] at hc
    simp only [Bool.or_eq_true, beq_iff_eq] at hc
    rcases hc with (h1 | h2) | h3
    · simp [validateChars, rustIsLowercase, h1, ih hcs]
    · simp [validateChars, rustIsAlphanumeric, h2, ih hcs]
    · simp [validateChars, h3, ih hcs]

/-! ### The produced tree versus the spec's artifact list -/

theorem built_eq_reverse_expected (name : String) (bg : Bool) (hne : name ≠ "")
    (hok : validate_extension_name name = Except.ok ()) :
    builtTree ⟨false, [name]⟩ name bg = (expectedArtifacts name bg).reverse := by
  rw [expectedArtifacts]
  rw [pathBuf_of_valid name hok hne]
  simp [builtTree]

theorem nodup_expected (name : String) (bg : Bool) (hne : name ≠ "")
    (hok : validate_extension_name name = Except.ok ()) :
    ((expectedArtifacts name bg).map Prod.fst).Nodup := by
  rw [expectedArtifacts, pathBuf_of_valid name hok hne]
  simp [FsPath.push, List.nodup_cons, control_ne_src, control_ne_sql, control_ne_dotcargo,
    control_ne_cargo_toml, control_ne_gitignore, src_ne_control, sql_ne_control,
    dotcargo_ne_control, cargo_toml_ne_control, gitignore_ne_control]

/-! ### Generic facts about the filesystem operations -/

theorem fsResolve_none_lookup (fs : FS) (p : FsPath) (h : fsResolve fs p = none) :
    fsLookup fs p = none := by
  rw [fsResolve] at h
  split at h
  · exact absurd h (by simp)
  · exact h

/-- Directory creation neither adds nor removes nor rewrites any file
entry, whether it succeeds or fails. -/
theorem createDirsGo_files (ab : Bool) :
    ∀ (l : List (List String)) (fs : FS) (p : FsPath) (c : String),
      fsLookup (resultState (createDirsGo ab l fs)) p = some (Entry.file c) ↔
        fsLookup fs p = some (Entry.file c) := by
  intro l
  induction l with
  | nil => intro fs p c; rfl
  | cons comp rest ih =>
    intro fs p c
    rw [createDirsGo]
    rcases hres : fsResolve fs ⟨ab, comp⟩ with _ | e
    · rw [ih]
      have hnone := fsResolve_none_lookup fs _ hres
      rw [fsLookup]
      split
      · rename_i heq
        rw [← heq, hnone]
        simp
      · rfl
    · cases e with
      | dir => exact ih fs p c
      | file d => rfl

/-- A path that resolves to a directory still does so after directory
creation succeeds. -/
theorem createDirsGo_dir_pres (ab : Bool) :
    ∀ (l : List (List String)) (fs fs' : FS) (p : FsPath),
      fsResolve fs p = some Entry.dir → createDirsGo ab l fs = Except.ok fs' →
        fsResolve fs' p = some Entry.dir := by
  intro l
  induction l with
  | nil => intro fs fs' p hp h; cases h; exact hp
  | cons comp rest ih =>
    intro fs fs' p hp h
    rw [createDirsGo] at h
    rcases hres : fsResolve fs ⟨ab, comp⟩ with _ | e
    · rw [hres] at h
      refine ih _ _ _ ?_ h
      rw [fsResolve] at hp ⊢
      split at hp
      · rename_i hcomp; rw [if_pos hcomp]
      · rename_i hcomp
        rw [if_neg hcomp, fsLookup]
        split
        · rfl
        · exact hp
    · rw [hres] at h
      cases e with
      | dir => exact ih _ _ _ hp h
      | file d => exact absurd h (by simp)

/-- After successful directory creation every requested prefix resolves
to a directory. -/
theorem createDirsGo_mem_dir (ab : Bool) :
    ∀ (l : List (List String)) (fs fs' : FS),
      createDirsGo ab l fs = Except.ok fs' →
        ∀ comp ∈ l, fsResolve fs' ⟨ab, comp⟩ = some Entry.dir := by
  intro l
  induction l with
  | nil => intro fs fs' h comp hm; exact absurd hm (by simp)
  | cons c rest ih =>
    intro fs fs' h comp hm
    rw [createDirsGo] at h
    rcases List.mem_cons.mp hm with h1 | h2
    · subst h1
      rcases hres : fsResolve fs ⟨ab, comp⟩ with _ | e
      · rw [hres] at h
        refine createDirsGo_dir_pres ab rest _ _ _ ?_ h
        rw [fsResolve]
        split
        · rfl
        · rw [fsLookup, if_pos rfl]
      · rw [hres] at h
        cases e with
        | dir => exact createDirsGo_dir_pres ab rest _ _ _ hres h
        | file d => exact absurd h (by simp)
    · rcases hres : fsResolve fs ⟨ab, c⟩ with _ | e
      · rw [hres] at h; exact ih _ _ h comp h2
      · rw [hres] at h
        cases e with
        | dir => exact ih _ _ h comp h2
        | file d => exact absurd h (by simp)

/-- Directory creation is a no-op when every requested prefix already
resolves to a directory. -/
theorem createDirsGo_idem (ab : Bool) :
    ∀ (l : List (List String)) (fs : FS),
      (∀ comp ∈ l, fsResolve fs ⟨ab, comp⟩ = some Entry.dir) →
        createDirsGo ab l fs = Except.ok fs := by
  intro l
  induction l with
  | nil => intro fs _; rfl
  | cons c rest ih =>
    intro fs h
    rw [createDirsGo, h c (List.mem_cons_self c rest)]
    exact ih fs (fun comp hm => h comp (List.mem_cons_of_mem c hm))

theorem filePres_bind {fs : FS} {m : Except (IOError × FS) FS}
    {k : FS → Except (IOError × FS) FS} (hm : FilePres fs m)
    (hk : ∀ fs1, m = Except.ok fs1 → FilePres fs1 (k fs1)) : FilePres fs (m >>= k) := by
  cases m with
  | error pr =>
    intro q c
    exact hm q c
  | ok fs1 =>
    intro q c
    have h1 := (hk fs1 rfl) q c
    have h2 := hm q c
    simp only [resultState] at h2
    rw [show (Except.ok fs1 >>= k : Except (IOError × FS) FS) = k fs1 from rfl]
    exact h1.trans h2

theorem create_dir_all_filePres (p : FsPath) (fs : FS) : FilePres fs (create_dir_all p fs) :=
  fun q c => createDirsGo_files p.absolute (prefixesOf p.components) fs q c

theorem create_directory_structure_filePres (path : FsPath) (fs : FS) :
    FilePres fs (create_directory_structure path fs) := by
  rw [create_directory_structure]
  refine filePres_bind (create_dir_all_filePres _ fs) ?_
  intro fs1 _
  refine filePres_bind (create_dir_all_filePres _ fs1) ?_
  intro fs2 _
  exact create_dir_all_filePres _ fs2

/-- A successful in-place update pinpoints the old file contents and the
new lookup behaviour. -/
theorem updateFile_some_lookup (f : String → String) :
    ∀ (fs fs' : FS) (p : FsPath), updateFile f fs p = some fs' →
      ∃ c, fsLookup fs p = some (Entry.file c) ∧
        ∀ q, fsLookup fs' q = (if p = q then some (Entry.file (f c)) else fsLookup fs q) := by
  intro fs
  induction fs with
  | nil => intro fs' p h; exact absurd h (by simp [updateFile])
  | cons a fs ih =>
    intro fs' p h
    obtain ⟨qa, ea⟩ := a
    simp only [updateFile] at h
    split at h
    · rename_i hqa
      cases ea with
      | dir => exact absurd h (by simp)
      | file c =>
        refine ⟨c, ?_, ?_⟩
        · rw [fsLookup, if_pos hqa]
        · intro q
          obtain rfl : (qa, Entry.file (f c)) :: fs = fs' := by
            simpa using h
          subst hqa
          by_cases hq : qa = q
          · rw [fsLookup, if_pos hq, if_pos hq]
          · rw [fsLookup, if_neg hq, if_neg hq, fsLookup, if_neg hq]
    · rename_i hqa
      rcases hrec : updateFile f fs p with _ | fsr
      · rw [hrec] at h; exact absurd h (by simp)
      · rw [hrec] at h
        obtain rfl : (qa, ea) :: fsr = fs' := by simpa using h
        obtain ⟨c, hc1, hc2⟩ := ih fsr p hrec
        refine ⟨c, ?_, ?_⟩
        · rw [fsLookup, if_neg hqa]; exact hc1
        · intro q
          rw [fsLookup, fsLookup]
          split
          · rename_i hq
            rw [if_neg (fun e => hqa (hq.trans e.symm))]
          · exact hc2 q

/-- `File::create` leaves an empty file at the target and everything
else untouched. -/
theorem file_create_ok_lookup (p : FsPath) (fs fs' : FS) (h : file_create p fs = Except.ok fs') :
    ∀ q, fsLookup fs' q = (if p = q then some (Entry.file "") else fsLookup fs q) := by
  rw [file_create] at h
  split at h
  · exact absurd h (by simp)
  · exact absurd h (by simp)
  · split at h
    · exact absurd h (by simp)
    · rcases hup : updateFile (fun _ => "") fs p with _ | fsr
      · rw [hup] at h; exact absurd h (by simp)
      · rw [hup] at h
        obtain rfl : fsr = fs' := by simpa using h
        obtain ⟨c, _, hc2⟩ := updateFile_some_lookup _ fs fsr p hup
        exact hc2
    · obtain rfl : (p, Entry.file "") :: fs = fs' := by simpa using h
      intro q
      rw [fsLookup]

/-- `write_all` appends to the file at the target and leaves everything
else untouched. -/
theorem write_all_ok_lookup (p : FsPath) (s : String) (fs fs' : FS)
    (h : write_all p s fs = Except.ok fs') :
    ∃ c, fsLookup fs p = some (Entry.file c) ∧
      ∀ q, fsLookup fs' q = (if p = q then some (Entry.file (c ++ s)) else fsLookup fs q) := by
  rw [write_all] at h
  rcases hup : updateFile (fun c => c ++ s) fs p with _ | fsr
  · rw [hup] at h; exact absurd h (by simp)
  · rw [hup] at h
    obtain rfl : fsr = fs' := by simpa using h
    exact updateFile_some_lookup _ fs fsr p hup

/-! ### Directory creation in `create_directory_structure` -/

theorem push_pop (p : FsPath) (c : String) : (p.push c).pop = p := by
  simp [FsPath.push, FsPath.pop]

theorem mem_prefixesOf_self : ∀ (l : List String), l ≠ [] → l ∈ prefixesOf l := by
  intro l
  induction l with
  | nil => intro h; exact absurd rfl h
  | cons c rest ih =>
    intro _
    rw [prefixesOf]
    rcases eq_or_ne rest [] with h | h
    · subst h; simp [prefixesOf]
    · exact List.mem_cons_of_mem _ (List.mem_map_of_mem _ (ih h))

theorem create_dir_all_pres (q : FsPath) (fs fs' : FS) (p : FsPath)
    (hp : fsResolve fs p = some Entry.dir) (h : create_dir_all q fs = Except.ok fs') :
    fsResolve fs' p = some Entry.dir :=
  createDirsGo_dir_pres q.absolute (prefixesOf q.components) fs fs' p hp h

theorem create_dir_all_leaf (p : FsPath) (fs fs' : FS) (h : create_dir_all p fs = Except.ok fs')
    (hne : p.components ≠ []) : fsResolve fs' p = some Entry.dir := by
  have := createDirsGo_mem_dir p.absolute (prefixesOf p.components) fs fs' h p.components
    (mem_prefixesOf_self _ hne)
  simpa using this

theorem push_components_ne_nil (p : FsPath) (c : String) : (p.push c).components ≠ [] := by
  simp [FsPath.push]

/-- After `create_directory_structure` succeeds, the three
subdirectories resolve to directories, and running it again on the
result is a no-op that succeeds. -/
theorem cds_ok_dirs (path : FsPath) (fs fs' : FS)
    (h : create_directory_structure path fs = Except.ok fs') :
    fsResolve fs' (path.push "src") = some Entry.dir ∧
    fsResolve fs' (path.push ".cargo") = some Entry.dir ∧
    fsResolve fs' (path.push "sql") = some Entry.dir ∧
    create_directory_structure path fs' = Except.ok fs' := by
  rw [create_directory_structure] at h
  simp only [push_pop] at h
  rcases h1 : create_dir_all (path.push "src") fs with pr | fs1
  · rw [h1] at h
    simp [Bind.bind, Except.bind] at h
  rw [h1] at h
  simp only [Bind.bind, Except.bind] at h
  rcases h2 : create_dir_all (path.push ".cargo") fs1 with pr | fs2
  · rw [h2] at h
    simp at h
  rw [h2] at h
  simp only [] at h
  have hsrc : fsResolve fs' (path.push "src") = some Entry.dir :=
    create_dir_all_pres _ _ _ _
      (create_dir_all_pres _ _ _ _ (create_dir_all_leaf _ _ _ h1 (push_components_ne_nil _ _)) h2) h
  have hcargo : fsResolve fs' (path.push ".cargo") = some Entry.dir :=
    create_dir_all_pres _ _ _ _ (create_dir_all_leaf _ _ _ h2 (push_components_ne_nil _ _)) h
  have hsql : fsResolve fs' (path.push "sql") = some Entry.dir :=
    create_dir_all_leaf _ _ _ h (push_components_ne_nil _ _)
  refine ⟨hsrc, hcargo, hsql, ?_⟩
  have hall1 : ∀ comp ∈ prefixesOf (path.push "src").components,
      fsResolve fs' ⟨(path.push "src").absolute, comp⟩ = some Entry.dir := by
    intro comp hm
    have := createDirsGo_mem_dir _ _ _ _ h1 comp hm
    exact create_dir_all_pres _ _ _ _ (create_dir_all_pres _ _ _ _ this h2) h
  have hall2 : ∀ comp ∈ prefixesOf (path.push ".cargo").components,
      fsResolve fs' ⟨(path.push ".cargo").absolute, comp⟩ = some Entry.dir := by
    intro comp hm
    exact create_dir_all_pres _ _ _ _ (createDirsGo_mem_dir _ _ _ _ h2 comp hm) h
  have hall3 : ∀ comp ∈ prefixesOf (path.push "sql").components,
      fsResolve fs' ⟨(path.push "sql").absolute, comp⟩ = some Entry.dir :=
    fun comp hm => createDirsGo_mem_dir _ _ _ _ h comp hm
  have i1 : create_dir_all (path.push "src") fs' = Except.ok fs' :=
    createDirsGo_idem _ _ _ hall1
  have i2 : create_dir_all (path.push ".cargo") fs' = Except.ok fs' :=
    createDirsGo_idem _ _ _ hall2
  have i3 : create_dir_all (path.push "sql") fs' = Except.ok fs' :=
    createDirsGo_idem _ _ _ hall3
  rw [create_directory_structure]
  simp only [push_pop, i1, i2, i3, Bind.bind, Except.bind]

/-! ### File writes -/

/-- Creating then writing a file leaves exactly the written contents at
the target. -/
theorem file_create_then_write (p : FsPath) (s : String) (fs fsa fs' : FS)
    (h1 : file_create p fs = Except.ok fsa) (h2 : write_all p s fsa = Except.ok fs') :
    fsLookup fs' p = some (Entry.file s) := by
  obtain ⟨c, hc1, hc2⟩ := write_all_ok_lookup _ _ _ _ h2
  have hfa := file_create_ok_lookup _ _ _ h1 p
  rw [if_pos rfl] at hfa
  rw [hfa] at hc1
  obtain rfl : c = ("" : String) := by simpa using hc1.symm
  rw [hc2 p, if_pos rfl, String.empty_append]

/-- Looking up any path other than the one in the middle ignores that
entry's contents. -/
theorem fsLookup_mid (l1 l2 : FS) (q : FsPath) (e e' : Entry) (p : FsPath) (hpq : ¬ (q = p)) :
    fsLookup (l1 ++ (q, e) :: l2) p = fsLookup (l1 ++ (q, e') :: l2) p := by
  induction l1 with
  | nil =>
    rw [List.nil_append, List.nil_append, fsLookup, fsLookup, if_neg hpq, if_neg hpq]
  | cons a l1 ih =>
    obtain ⟨qa, ea⟩ := a
    rw [List.cons_append, List.cons_append, fsLookup, fsLookup]
    by_cases hq : qa = p
    · rw [if_pos hq, if_pos hq]
    · rw [if_neg hq, if_neg hq]
      exact ih

theorem lookup_lib_builtTree (name : String) (bg : Bool) :
    fsLookup (builtTree ⟨false, [name]⟩ name bg)
        (((FsPath.mk false [name]).push "src").push "lib.rs") =
      some (Entry.file (if bg then bgworkerLibTemplate.render name else libTemplate.render name)) := by
  simp [builtTree, fsLookup, FsPath.push]

/-! ### Runs with the empty name -/

theorem run_empty_name (bg : Bool) :
    New.execute ⟨"", bg, 0⟩ [] = Except.ok (emptyNameTree bg) := by
  cases bg <;> rfl

theorem run_empty_name_again (bg : Bool) :
    New.execute ⟨"", bg, 0⟩ (emptyNameTree bg) = Except.ok (emptyNameTree bg) := by
  cases bg <;> rfl

/-! ## The claims -/

/-- C1: the claim states that any string containing an uppercase letter,
space, or punctuation character is rejected with the error naming
`[a-z0-9_]`.  The code does not do this for uppercase letters: an
uppercase letter is alphanumeric, so the rejection condition
`!c.is_alphanumeric() && c != '_' && !c.is_lowercase()` is false and the
name is accepted, contradicting the code's own error message.  This
theorem evaluates the code at the failing input `"ABC"`: it returns
`Ok(())` instead of the validation error. -/
theorem c1_validator_accepts_uppercase : validate_extension_name "ABC" = Except.ok () := by
  decide

/-- C2: every string composed only of characters from `[a-z0-9_]` is
approved by `validate_extension_name`. -/
theorem c2_allowed_charset_approved (name : String)
    (h : ∀ c ∈ name.data, allowedChar c = true) :
    validate_extension_name name = Except.ok () :=
  validateChars_allowed name.data h

theorem c2_allowed_charset_approved_witness :
    validate_extension_name "my_ext1" = Except.ok () :=
  c2_allowed_charset_approved "my_ext1" (by decide)

/-- C3: for every approved name, a full successful run on an empty
destination produces exactly the artifacts the spec lists — the
destination root directory plus the three directories `src`, `.cargo`,
`sql` and the five files `<name>.control`, `Cargo.toml`,
`.cargo/config`, `src/lib.rs`, `.gitignore` with their rendered
contents — and nothing else: the resulting filesystem is a permutation
of the expected artifact list, whose paths are pairwise distinct. -/
theorem c3_exactly_eight_artifacts (name : String) (bg : Bool)
    (h : validate_extension_name name = Except.ok ()) :
    ∃ fs', New.execute ⟨name, bg, 0⟩ [] = Except.ok fs' ∧
      fs'.Perm (expectedArtifacts name bg) ∧
      ((expectedArtifacts name bg).map Prod.fst).Nodup := by
  by_cases hne : name = ""
  · subst hne
    cases bg
    · exact ⟨_, rfl, by decide, by decide⟩
    · exact ⟨_, rfl, by decide, by decide⟩
  · have hpath := pathBuf_of_valid name h hne
    refine ⟨builtTree ⟨false, [name]⟩ name bg, ?_, ?_, ?_⟩
    · simp only [New.execute, h]
      rw [hpath, run_nonempty]
    · rw [built_eq_reverse_expected name bg hne h]
      exact List.reverse_perm _
    · exact nodup_expected name bg hne h

theorem c3_exactly_eight_artifacts_witness :
    ∃ fs', New.execute ⟨"my_ext", false, 0⟩ [] = Except.ok fs' ∧
      fs'.Perm (expectedArtifacts "my_ext" false) ∧
      ((expectedArtifacts "my_ext" false).map Prod.fst).Nodup :=
  c3_exactly_eight_artifacts "my_ext" false (by decide)

/-- C4: for every approved name, the Standard and Worker runs succeed
and produce filesystems whose entry-point file `src/lib.rs` has
different contents, while every other path resolves identically in the
two runs. -/
theorem c4_variant_changes_only_lib_rs (name : String)
    (h : validate_extension_name name = Except.ok ()) :
    ∃ fsS fsW, New.execute ⟨name, false, 0⟩ [] = Except.ok fsS ∧
      New.execute ⟨name, true, 0⟩ [] = Except.ok fsW ∧
      fsLookup fsS (((pathBufFromStr (name ++ "/")).push "src").push "lib.rs") ≠
        fsLookup fsW (((pathBufFromStr (name ++ "/")).push "src").push "lib.rs") ∧
      (∀ p, p ≠ ((pathBufFromStr (name ++ "/")).push "src").push "lib.rs" →
        fsLookup fsS p = fsLookup fsW p) := by
  by_cases hne : name = ""
  · subst hne
    refine ⟨emptyNameTree false, emptyNameTree true, run_empty_name false, run_empty_name true,
      by decide, ?_⟩
    intro p hp
    exact fsLookup_mid [(⟨true, [".gitignore"]⟩, Entry.file gitignoreBytes)]
      [(⟨true, [".cargo", "config"]⟩, Entry.file cargoConfigBytes),
       (⟨true, ["Cargo.toml"]⟩, Entry.file (cargoTomlTemplate.render "")),
       (⟨true, [".control"]⟩, Entry.file (controlTemplate.render "")),
       (⟨true, ["sql"]⟩, Entry.dir),
       (⟨true, [".cargo"]⟩, Entry.dir),
       (⟨true, ["src"]⟩, Entry.dir)]
      ⟨true, ["src", "lib.rs"]⟩
      (Entry.file (if false then bgworkerLibTemplate.render "" else libTemplate.render ""))
      (Entry.file (if true then bgworkerLibTemplate.render "" else libTemplate.render ""))
      p (fun e => hp (by rw [← e]; decide))
  · have hpath := pathBuf_of_valid name h hne
    refine ⟨builtTree ⟨false, [name]⟩ name false, builtTree ⟨false, [name]⟩ name true,
      ?_, ?_, ?_, ?_⟩
    · simp only [New.execute, h]
      rw [hpath, run_nonempty]
    · simp only [New.execute, h]
      rw [hpath, run_nonempty]
    · rw [hpath, lookup_lib_builtTree name false, lookup_lib_builtTree name true]
      intro he
      simp only [Option.some.injEq, Entry.file.injEq] at he
      exact renders_differ name (by simpa using he)
    · intro p hp
      rw [hpath] at hp
      exact fsLookup_mid
        [((FsPath.mk false [name]).push ".gitignore", Entry.file gitignoreBytes)]
        [(((FsPath.mk false [name]).push ".cargo").push "config", Entry.file cargoConfigBytes),
         ((FsPath.mk false [name]).push "Cargo.toml", Entry.file (cargoTomlTemplate.render name)),
         ((FsPath.mk false [name]).push (name ++ ".control"),
           Entry.file (controlTemplate.render name)),
         ((FsPath.mk false [name]).push "sql", Entry.dir),
         ((FsPath.mk false [name]).push ".cargo", Entry.dir),
         ((FsPath.mk false [name]).push "src", Entry.dir),
         (FsPath.mk false [name], Entry.dir)]
        (((FsPath.mk false [name]).push "src").push "lib.rs")
        (Entry.file (if false then bgworkerLibTemplate.render name else libTemplate.render name))
        (Entry.file (if true then bgworkerLibTemplate.render name else libTemplate.render name))
        p (fun e => hp e.symm)

theorem c4_variant_changes_only_lib_rs_witness :
    ∃ fsS fsW, New.execute ⟨"my_ext", false, 0⟩ [] = Except.ok fsS ∧
      New.execute ⟨"my_ext", true, 0⟩ [] = Except.ok fsW ∧
      fsLookup fsS (((pathBufFromStr ("my_ext" ++ "/")).push "src").push "lib.rs") ≠
        fsLookup fsW (((pathBufFromStr ("my_ext" ++ "/")).push "src").push "lib.rs") ∧
      (∀ p, p ≠ ((pathBufFromStr ("my_ext" ++ "/")).push "src").push "lib.rs" →
        fsLookup fsS p = fsLookup fsW p) :=
  c4_variant_changes_only_lib_rs "my_ext" (by decide)

/-- C5: `create_crate_template` runs its six steps in the fixed order
(directories, control file, manifest, tooling-config file, entry point,
ignore-rules file); whichever step fails first, the run returns exactly
that step's error together with the filesystem state as that step left
it — no later step runs, nothing is cleaned up — and in particular a
failure of directory creation (step 1) leaves the set of files (with
their contents) exactly as it was: no file from steps 2-6 is written. -/
theorem c5_fixed_order_fail_fast (path : FsPath) (name : String) (bg : Bool) (fs : FS) :
    (∀ e fs1, create_directory_structure path fs = Except.error (e, fs1) →
      create_crate_template path name bg fs = Except.error (e, fs1) ∧
      (∀ p c, fsLookup fs1 p = some (Entry.file c) ↔ fsLookup fs p = some (Entry.file c))) ∧
    (∀ fs1 e fs2, create_directory_structure path fs = Except.ok fs1 →
      create_control_file path name fs1 = Except.error (e, fs2) →
      create_crate_template path name bg fs = Except.error (e, fs2)) ∧
    (∀ fs1 fs2 e fs3, create_directory_structure path fs = Except.ok fs1 →
      create_control_file path name fs1 = Except.ok fs2 →
      create_cargo_toml path name fs2 = Except.error (e, fs3) →
      create_crate_template path name bg fs = Except.error (e, fs3)) ∧
    (∀ fs1 fs2 fs3 e fs4, create_directory_structure path fs = Except.ok fs1 →
      create_control_file path name fs1 = Except.ok fs2 →
      create_cargo_toml path name fs2 = Except.ok fs3 →
      create_dotcargo_config path name fs3 = Except.error (e, fs4) →
      create_crate_template path name bg fs = Except.error (e, fs4)) ∧
    (∀ fs1 fs2 fs3 fs4 e fs5, create_directory_structure path fs = Except.ok fs1 →
      create_control_file path name fs1 = Except.ok fs2 →
      create_cargo_toml path name fs2 = Except.ok fs3 →
      create_dotcargo_config path name fs3 = Except.ok fs4 →
      create_lib_rs path name bg fs4 = Except.error (e, fs5) →
      create_crate_template path name bg fs = Except.error (e, fs5)) ∧
    (∀ fs1 fs2 fs3 fs4 fs5 e fs6, create_directory_structure path fs = Except.ok fs1 →
      create_control_file path name fs1 = Except.ok fs2 →
      create_cargo_toml path name fs2 = Except.ok fs3 →
      create_dotcargo_config path name fs3 = Except.ok fs4 →
      create_lib_rs path name bg fs4 = Except.ok fs5 →
      create_git_ignore path name fs5 = Except.error (e, fs6) →
      create_crate_template path name bg fs = Except.error (e, fs6)) := by
  refine ⟨?_, ?_, ?_, ?_, ?_, ?_⟩
  · intro e fs1 hd
    constructor
    · simp only [create_crate_template, Bind.bind, Except.bind, hd]
    · have hp := create_directory_structure_filePres path fs
      rw [hd] at hp
      intro p c
      exact hp p c
  · intro fs1 e fs2 hd hc
    simp only [create_crate_template, Bind.bind, Except.bind, hd, hc]
  · intro fs1 fs2 e fs3 hd hc ht
    simp only [create_crate_template, Bind.bind, Except.bind, hd, hc, ht]
  · intro fs1 fs2 fs3 e fs4 hd hc ht hg
    simp only [create_crate_template, Bind.bind, Except.bind, hd, hc, ht, hg]
  · intro fs1 fs2 fs3 fs4 e fs5 hd hc ht hg hl
    simp only [create_crate_template, Bind.bind, Except.bind, hd, hc, ht, hg, hl]
  · intro fs1 fs2 fs3 fs4 fs5 e fs6 hd hc ht hg hl hi
    simp only [create_crate_template, Bind.bind, Except.bind, hd, hc, ht, hg, hl, hi]

theorem c5_fixed_order_fail_fast_witness :
    create_crate_template ⟨false, ["x"]⟩ "x" false
        [(⟨false, ["x"]⟩, Entry.file "occupied")] =
      Except.error (IOError.notADirectory ⟨false, ["x"]⟩,
        [(⟨false, ["x"]⟩, Entry.file "occupied")]) :=
  ((c5_fixed_order_fail_fast ⟨false, ["x"]⟩ "x" false
      [(⟨false, ["x"]⟩, Entry.file "occupied")]).1
    (IOError.notADirectory ⟨false, ["x"]⟩)
    [(⟨false, ["x"]⟩, Entry.file "occupied")] (by decide)).1

/-- C6: when validation rejects the name, `New::execute` surfaces the
validation error and the filesystem state is returned exactly as it was
given — no directory is created and no file is written. -/
theorem c6_validation_error_no_mutation (n : New) (m : String) (fs : FS)
    (h : validate_extension_name n.name = Except.error m) :
    New.execute n fs = Except.error (NewError.validation m, fs) := by
  rw [New.execute, h]

theorem c6_validation_error_no_mutation_witness :
    New.execute ⟨"bad name!", false, 0⟩ [(⟨false, ["q"]⟩, Entry.dir)] =
      Except.error (NewError.validation "Extension name must be in the set of [a-z0-9_]",
        [(⟨false, ["q"]⟩, Entry.dir)]) :=
  c6_validation_error_no_mutation ⟨"bad name!", false, 0⟩
    "Extension name must be in the set of [a-z0-9_]"
    [(⟨false, ["q"]⟩, Entry.dir)] (by decide)

/-- C7: the tooling-config file `.cargo/config` and the ignore-rules
file `.gitignore` are written byte-identical to their source templates
with no substitution: the two writers ignore their name argument (their
results coincide for any two names), and on success the written file's
contents are exactly the template bytes. -/
theorem c7_verbatim_config_and_gitignore (path : FsPath) (name name2 : String) (fs : FS) :
    create_dotcargo_config path name fs = create_dotcargo_config path name2 fs ∧
    create_git_ignore path name fs = create_git_ignore path name2 fs ∧
    (∀ fs', create_dotcargo_config path name fs = Except.ok fs' →
      fsLookup fs' ((path.push ".cargo").push "config") = some (Entry.file cargoConfigBytes)) ∧
    (∀ fs', create_git_ignore path name fs = Except.ok fs' →
      fsLookup fs' (path.push ".gitignore") = some (Entry.file gitignoreBytes)) := by
  refine ⟨rfl, rfl, ?_, ?_⟩
  · intro fs' h
    rw [create_dotcargo_config] at h
    rcases h1 : file_create ((path.push ".cargo").push "config") fs with pr | fsa
    · rw [h1] at h; simp [Bind.bind, Except.bind] at h
    · rw [h1] at h
      simp only [Bind.bind, Except.bind] at h
      exact file_create_then_write _ _ _ _ _ h1 h
  · intro fs' h
    rw [create_git_ignore] at h
    rcases h1 : file_create (path.push ".gitignore") fs with pr | fsa
    · rw [h1] at h; simp [Bind.bind, Except.bind] at h
    · rw [h1] at h
      simp only [Bind.bind, Except.bind] at h
      exact file_create_then_write _ _ _ _ _ h1 h

theorem c7_verbatim_config_and_gitignore_witness :
    create_dotcargo_config ⟨false, ["w"]⟩ "aaa"
        [(⟨false, ["w", ".cargo"]⟩, Entry.dir), (⟨false, ["w"]⟩, Entry.dir)] =
      create_dotcargo_config ⟨false, ["w"]⟩ "bbb"
        [(⟨false, ["w", ".cargo"]⟩, Entry.dir), (⟨false, ["w"]⟩, Entry.dir)] ∧
    fsLookup [(⟨false, ["w", ".cargo", "config"]⟩, Entry.file cargoConfigBytes),
        (⟨false, ["w", ".cargo"]⟩, Entry.dir), (⟨false, ["w"]⟩, Entry.dir)]
      ((FsPath.mk false ["w"] |>.push ".cargo").push "config") =
      some (Entry.file cargoConfigBytes) :=
  ⟨(c7_verbatim_config_and_gitignore ⟨false, ["w"]⟩ "aaa" "bbb"
      [(⟨false, ["w", ".cargo"]⟩, Entry.dir), (⟨false, ["w"]⟩, Entry.dir)]).1,
   (c7_verbatim_config_and_gitignore ⟨false, ["w"]⟩ "aaa" "bbb"
      [(⟨false, ["w", ".cargo"]⟩, Entry.dir), (⟨false, ["w"]⟩, Entry.dir)]).2.2.1
     [(⟨false, ["w", ".cargo", "config"]⟩, Entry.file cargoConfigBytes),
      (⟨false, ["w", ".cargo"]⟩, Entry.dir), (⟨false, ["w"]⟩, Entry.dir)] (by decide)⟩

/-- C8: re-running the command with the same name and variant on the
tree a first run produced succeeds and returns the very same filesystem:
every file is truncated and rewritten with identical content and the
directories are left unchanged. -/
theorem c8_rerun_overwrites_identically (name : String) (bg : Bool) (fs1 : FS)
    (h : validate_extension_name name = Except.ok ())
    (hrun : New.execute ⟨name, bg, 0⟩ [] = Except.ok fs1) :
    New.execute ⟨name, bg, 0⟩ fs1 = Except.ok fs1 := by
  by_cases hne : name = ""
  · subst hne
    rw [run_empty_name bg] at hrun
    obtain rfl : emptyNameTree bg = fs1 := by simpa using hrun
    exact run_empty_name_again bg
  · have hpath := pathBuf_of_valid name h hne
    simp only [New.execute, h] at hrun ⊢
    rw [hpath] at hrun ⊢
    rw [run_nonempty] at hrun
    obtain rfl : builtTree ⟨false, [name]⟩ name bg = fs1 := by simpa using hrun
    rw [run_again]

theorem c8_rerun_overwrites_identically_witness :
    New.execute ⟨"my_ext", false, 0⟩ (builtTree ⟨false, ["my_ext"]⟩ "my_ext" false) =
      Except.ok (builtTree ⟨false, ["my_ext"]⟩ "my_ext" false) :=
  c8_rerun_overwrites_identically "my_ext" false
    (builtTree ⟨false, ["my_ext"]⟩ "my_ext" false) (by decide) (by decide)

/-- C9: after directory creation succeeds the three subdirectories
`src`, `.cargo`, `sql` all resolve to directories, and re-running
directory creation on that state is a tolerated no-op; moreover a
successful full run implies directory creation succeeded first (its
result, with all three directories present, is the state every file
write starts from). -/
theorem c9_directories_before_files (path : FsPath) (name : String) (bg : Bool) :
    (∀ fs fs1, create_directory_structure path fs = Except.ok fs1 →
      fsResolve fs1 (path.push "src") = some Entry.dir ∧
      fsResolve fs1 (path.push ".cargo") = some Entry.dir ∧
      fsResolve fs1 (path.push "sql") = some Entry.dir ∧
      create_directory_structure path fs1 = Except.ok fs1) ∧
    (∀ fs fs', create_crate_template path name bg fs = Except.ok fs' →
      ∃ fs1, create_directory_structure path fs = Except.ok fs1 ∧
        fsResolve fs1 (path.push "src") = some Entry.dir ∧
        fsResolve fs1 (path.push ".cargo") = some Entry.dir ∧
        fsResolve fs1 (path.push "sql") = some Entry.dir) := by
  constructor
  · intro fs fs1 h
    exact cds_ok_dirs path fs fs1 h
  · intro fs fs' h
    rw [create_crate_template] at h
    rcases hd : create_directory_structure path fs with pr | fs1
    · rw [hd] at h
      simp [Bind.bind, Except.bind] at h
    · obtain ⟨h1, h2, h3, _⟩ := cds_ok_dirs path fs fs1 hd
      exact ⟨fs1, rfl, h1, h2, h3⟩

theorem c9_directories_before_files_witness :
    fsResolve [(⟨false, ["w", "sql"]⟩, Entry.dir), (⟨false, ["w", ".cargo"]⟩, Entry.dir),
        (⟨false, ["w", "src"]⟩, Entry.dir), (⟨false, ["w"]⟩, Entry.dir)]
      (FsPath.mk false ["w"] |>.push "src") = some Entry.dir ∧
    fsResolve [(⟨false, ["w", "sql"]⟩, Entry.dir), (⟨false, ["w", ".cargo"]⟩, Entry.dir),
        (⟨false, ["w", "src"]⟩, Entry.dir), (⟨false, ["w"]⟩, Entry.dir)]
      (FsPath.mk false ["w"] |>.push ".cargo") = some Entry.dir ∧
    fsResolve [(⟨false, ["w", "sql"]⟩, Entry.dir), (⟨false, ["w", ".cargo"]⟩, Entry.dir),
        (⟨false, ["w", "src"]⟩, Entry.dir), (⟨false, ["w"]⟩, Entry.dir)]
      (FsPath.mk false ["w"] |>.push "sql") = some Entry.dir ∧
    create_directory_structure ⟨false, ["w"]⟩
        [(⟨false, ["w", "sql"]⟩, Entry.dir), (⟨false, ["w", ".cargo"]⟩, Entry.dir),
         (⟨false, ["w", "src"]⟩, Entry.dir), (⟨false, ["w"]⟩, Entry.dir)] =
      Except.ok [(⟨false, ["w", "sql"]⟩, Entry.dir), (⟨false, ["w", ".cargo"]⟩, Entry.dir),
        (⟨false, ["w", "src"]⟩, Entry.dir), (⟨false, ["w"]⟩, Entry.dir)] :=
  (c9_directories_before_files ⟨false, ["w"]⟩ "w" false).1 []
    [(⟨false, ["w", "sql"]⟩, Entry.dir), (⟨false, ["w", ".cargo"]⟩, Entry.dir),
     (⟨false, ["w", "src"]⟩, Entry.dir), (⟨false, ["w"]⟩, Entry.dir)] (by decide)

/-- C10: `validate_extension_name` accepts the empty string (the
per-character check is vacuous), so `New::execute` proceeds to
generation with the empty name; `format!("{}/", "")` is `"/"`, which
parses as the absolute filesystem root rather than a subdirectory of the
current working directory, and generation proceeds there. -/
theorem c10_empty_name_accepted_root_path :
    validate_extension_name "" = Except.ok () ∧
    ("" ++ "/" : String) = "/" ∧
    pathBufFromStr ("" ++ "/") = ⟨true, []⟩ ∧
    (pathBufFromStr ("" ++ "/")).absolute = true ∧
    (∃ fs', New.execute ⟨"", false, 0⟩ [] = Except.ok fs') ∧
    (∃ fs', New.execute ⟨"", true, 0⟩ [] = Except.ok fs') :=
  ⟨by decide, by decide, by decide, by decide,
    ⟨emptyNameTree false, run_empty_name false⟩,
    ⟨emptyNameTree true, run_empty_name true⟩⟩
